import Mathlib

set_option maxRecDepth 40000

/-!
Verification of the greencheckk response parser (`parseSustainabilityResult`)
and PDF report generator (`generatePdfReport`) from `src/App.tsx`.

The JavaScript string primitives used by the source (`trim`, `split('\n')`,
`startsWith`, `endsWith`, `substring`, `slice(0,-1)`, `split(' ')[0]`) are
embedded as structurally recursive functions over `String.data` so that the
kernel can evaluate them on concrete inputs.  JavaScript `trim` removes
Unicode whitespace; we model it with `Char.isWhitespace` (space, tab, CR, LF),
which agrees with JavaScript on every character occurring in the source's
literals and in the inputs considered here.  The JavaScript index-based
operations `substring(2)` and `slice(0, -1)` count UTF-16 code units, while we
count code points; the source only applies them where the affected characters
are ASCII (`"- "` prefixes and `":"` suffixes), where the two notions agree.

Exceptions: `lines[++i].trim()` is `undefined.trim()` in JavaScript when no
next line exists, a thrown `TypeError`; fallible evaluation is therefore
modelled in `Except Unit`, with `Except.error ()` standing for a throw.
-/

deriving instance DecidableEq for Except

/-- JavaScript `s.trim()`: remove leading and trailing whitespace. -/
def jsTrim (s : String) : String :=
  ⟨((s.data.dropWhile Char.isWhitespace).reverse.dropWhile Char.isWhitespace).reverse⟩

/-- Auxiliary for `jsSplitLines`: split a character list at `'\n'`. -/
def splitLinesAux : List Char → List (List Char)
  | [] => [[]]
  | c :: cs =>
    if c = '\n' then
      [] :: splitLinesAux cs
    else
      match splitLinesAux cs with
      | [] => [[c]]
      | l :: ls => (c :: l) :: ls

/-- JavaScript `s.split('\n')`. -/
def jsSplitLines (s : String) : List String :=
  (splitLinesAux s.data).map String.mk

/-- JavaScript `s.startsWith(p)`. -/
def jsStartsWith (s p : String) : Bool :=
  p.data.isPrefixOf s.data

/-- JavaScript `s.endsWith(p)`. -/
def jsEndsWith (s p : String) : Bool :=
  p.data.reverse.isPrefixOf s.data.reverse

/-- JavaScript `s.substring(n)`: drop the first `n` characters. -/
def jsDrop (s : String) (n : Nat) : String :=
  ⟨s.data.drop n⟩

/-- JavaScript `s.slice(0, -1)`: drop the last character. -/
def jsDropLast (s : String) : String :=
  ⟨s.data.dropLast⟩

/-- JavaScript `s.split(' ')[0]`: the first space-delimited token. -/
def jsFirstToken (s : String) : String :=
  ⟨s.data.takeWhile (fun c => c ≠ ' ')⟩

/-- Record `GroundingUrl` from `src/App.tsx` (lines 5-8). -/
structure GroundingUrl where
  uri : String
  title : String
deriving Repr, DecidableEq

/-- Entry of `ingredientSpecificDetails` in `ParsedResult` (`src/App.tsx`,
line 18). -/
structure IngredientDetail where
  name : String
  explanation : String
deriving Repr, DecidableEq

/-- Interface `ParsedResult` from `src/App.tsx` (lines 10-21). -/
structure ParsedResult where
  icon : String
  overallVerdict : String
  greenwashingRisk : String
  claimsFailed : List String
  whyClaimsFailed : List String
  ingredientsToNote : List String
  moreDetails : String
  ingredientSpecificDetails : List IngredientDetail
  improvementSuggestions : List String
  groundingUrls : List GroundingUrl
deriving Repr, DecidableEq

/-- Values the mutable `currentSection` variable can take (apart from `null`,
modelled as `Option.none`) inside `parseSustainabilityResult`. -/
inductive ParseSection where
  | claimsFailed
  | whyClaimsFailed
  | ingredientsToNote
  | moreDetails
  | ingredientSpecificDetails
  | improvementSuggestions
deriving Repr, DecidableEq

/-- Mutable state of the parsing loop in `parseSustainabilityResult`: the
partially built result, `currentSection`, and `ingredientDetailName`. -/
structure ParseState where
  result : ParsedResult
  currentSection : Option ParseSection
  ingredientDetailName : String
deriving Repr, DecidableEq

/-- Fixed sentinel guidance message `IRRELEVANT_INPUT_MESSAGE`
(`src/App.tsx`, lines 24-26; the apostrophe is U+2019 as in the source). -/
def IRRELEVANT_INPUT_MESSAGE : String :=
  "Input not recognized as a product label.\nPlease paste a product’s ingredient list or upload a clear image of the ingredient label to run a sustainability check.\nFor example: ingredients, material lists, or sustainability claims printed on packaging."

/-- Model of `result.ingredientSpecificDetails[lastIndex].explanation += s`
guarded by `lastIndex >= 0` (`src/App.tsx`, lines 89-92): append `s` to the
explanation of the last entry, or do nothing when the list is empty. -/
def appendToLastExplanation (l : List IngredientDetail) (s : String) : List IngredientDetail :=
  match l.getLast? with
  | none => l
  | some d => l.dropLast ++ [{ d with explanation := d.explanation ++ s }]

/-- The `else if (currentSection)` branch of the loop body (`src/App.tsx`,
lines 73-97): how a (trimmed) line that is neither an icon line nor a section
header updates the state, given the current section. -/
def applySection (sec : ParseSection) (line : String) (st : ParseState) : ParseState :=
  match sec with
  | .claimsFailed =>
    if jsStartsWith line "- " then
      { st with result := { st.result with
          claimsFailed := st.result.claimsFailed ++ [jsTrim (jsDrop line 2)] } }
    else st
  | .whyClaimsFailed =>
    if jsStartsWith line "- " then
      { st with result := { st.result with
          whyClaimsFailed := st.result.whyClaimsFailed ++ [jsTrim (jsDrop line 2)] } }
    else st
  | .ingredientsToNote =>
    if jsStartsWith line "- " then
      { st with result := { st.result with
          ingredientsToNote := st.result.ingredientsToNote ++ [jsTrim (jsDrop line 2)] } }
    else st
  | .moreDetails =>
    if line ≠ "" then
      { st with result := { st.result with
          moreDetails := st.result.moreDetails ++ line ++ "\n" } }
    else st
  | .ingredientSpecificDetails =>
    if jsEndsWith line ":" then
      let name := jsTrim (jsDropLast line)
      if name ≠ "" then
        { st with
            ingredientDetailName := name,
            result := { st.result with
              ingredientSpecificDetails :=
                st.result.ingredientSpecificDetails ++ [⟨name, ""⟩] } }
      else
        { st with ingredientDetailName := name }
    else if st.ingredientDetailName ≠ "" ∧ line ≠ "" then
      { st with result := { st.result with
          ingredientSpecificDetails :=
            appendToLastExplanation st.result.ingredientSpecificDetails (line ++ "\n") } }
    else st
  | .improvementSuggestions =>
    if jsStartsWith line "- " then
      { st with result := { st.result with
          improvementSuggestions := st.result.improvementSuggestions ++ [jsTrim (jsDrop line 2)] } }
    else st

/-- The `for` loop of `parseSustainabilityResult` (`src/App.tsx`, lines
50-98).  The two single-value headers read `lines[++i].trim()`: when no next
line exists this is `undefined.trim()` in JavaScript, a thrown `TypeError`,
modelled as `Except.error ()`; otherwise the next line is consumed (skipped
by the loop, because `++i` advances the index) and its trimmed text stored. -/
def parseLines : List String → ParseState → Except Unit ParseState
  | [], st => .ok st
  | l :: rest, st =>
    let line := jsTrim l
    if jsStartsWith line "❌" || jsStartsWith line "🟠" || jsStartsWith line "✅" then
      parseLines rest { st with result := { st.result with icon := jsFirstToken line } }
    else if jsStartsWith line "Overall Verdict:" then
      match rest with
      | [] => .error ()
      | v :: rest' =>
        parseLines rest'
          { st with result := { st.result with overallVerdict := jsTrim v },
                    currentSection := none }
    else if jsStartsWith line "Greenwashing Risk:" then
      match rest with
      | [] => .error ()
      | v :: rest' =>
        parseLines rest'
          { st with result := { st.result with greenwashingRisk := jsTrim v },
                    currentSection := none }
    else if jsStartsWith line "Claims that failed to meet expectations:" then
      parseLines rest { st with currentSection := some .claimsFailed }
    else if jsStartsWith line "Why these claims failed:" then
      parseLines rest { st with currentSection := some .whyClaimsFailed }
    else if jsStartsWith line "Ingredients to note:" then
      parseLines rest { st with currentSection := some .ingredientsToNote }
    else if jsStartsWith line "More details:" then
      parseLines rest { st with currentSection := some .moreDetails }
    else if jsStartsWith line "Ingredient-specific details:" then
      parseLines rest { st with currentSection := some .ingredientSpecificDetails }
    else if jsStartsWith line "Improvement suggestions:" then
      parseLines rest { st with currentSection := some .improvementSuggestions }
    else
      match st.currentSection with
      | none => parseLines rest st
      | some sec => parseLines rest (applySection sec line st)

/-- Post-loop clean-up (`src/App.tsx`, lines 100-107): trim `moreDetails` if
non-empty, and trim every accumulated explanation. -/
def finalize (st : ParseState) : ParsedResult :=
  let r := st.result
  let r := if r.moreDetails ≠ "" then { r with moreDetails := jsTrim r.moreDetails } else r
  { r with ingredientSpecificDetails :=
      r.ingredientSpecificDetails.map (fun d => { d with explanation := jsTrim d.explanation }) }

/-- Fresh `ParsedResult` with every field empty (`src/App.tsx`, lines 34-45). -/
def initResult : ParsedResult :=
  { icon := "", overallVerdict := "", greenwashingRisk := "",
    claimsFailed := [], whyClaimsFailed := [], ingredientsToNote := [],
    moreDetails := "", ingredientSpecificDetails := [],
    improvementSuggestions := [], groundingUrls := [] }

/-- Initial loop state: fresh result, `currentSection = null`,
`ingredientDetailName = ''`. -/
def initState : ParseState :=
  { result := initResult, currentSection := none, ingredientDetailName := "" }

/-- Function `parseSustainabilityResult` (`src/App.tsx`, lines 29-110).
`Except.ok none` models the early `return null` for empty input or the
sentinel message; `Except.error ()` models a thrown `TypeError`.
JavaScript `!rawText` is true exactly for the empty string. -/
def parseSustainabilityResult (rawText : String) : Except Unit (Option ParsedResult) :=
  if rawText = "" ∨ jsTrim rawText = jsTrim IRRELEVANT_INPUT_MESSAGE then
    .ok none
  else
    (parseLines (jsSplitLines rawText) initState).map (fun st => some (finalize st))

/-- Trimmed line on which the loop consumes (skips) the following line: one of
the two single-value headers, not shadowed by the earlier icon branch. -/
def isConsumingHeader (line : String) : Bool :=
  !(jsStartsWith line "❌" || jsStartsWith line "🟠" || jsStartsWith line "✅") &&
    (jsStartsWith line "Overall Verdict:" || jsStartsWith line "Greenwashing Risk:")

/-- List accumulated by one of the four bulleted-list sections. -/
def bulletedList (sec : ParseSection) (r : ParsedResult) : List String :=
  match sec with
  | .claimsFailed => r.claimsFailed
  | .whyClaimsFailed => r.whyClaimsFailed
  | .ingredientsToNote => r.ingredientsToNote
  | .improvementSuggestions => r.improvementSuggestions
  | _ => []

namespace Pdf

/-- jsPDF default page geometry (A4 portrait, millimetres). -/
def pageHeight : ℚ := 297

/-- jsPDF default page width (A4 portrait, millimetres). -/
def pageWidth : ℚ := 210

/-- Layout constant `margin` (`src/App.tsx`, line 256). -/
def margin : ℚ := 10

/-- Layout constant `lineHeight` (`src/App.tsx`, line 257). -/
def lineHeight : ℚ := 7

/-- Layout constant `sectionSpacing` (`src/App.tsx`, line 258). -/
def sectionSpacing : ℚ := 10

/-- Layout constant `textWidth = pageWidth - 2 * margin` (`src/App.tsx`,
line 260). -/
def textWidth : ℚ := pageWidth - 2 * margin

/-- One `doc.text`/`doc.textWithLink` call: which page it landed on, its
coordinates, its text, and whether the source guarded it with an
`if (y + h > pageHeight - margin)` page-break check immediately before. -/
structure Placement where
  page : ℕ
  x : ℚ
  y : ℚ
  text : String
  guarded : Bool
deriving Repr, DecidableEq

/-- Mutable layout state of `generatePdfReport`: current page, running
vertical cursor `y`, and the placements made so far. -/
structure PdfState where
  page : ℕ
  y : ℚ
  placed : List Placement
deriving Repr, DecidableEq

/-- Model of `doc.text(t, x, y)` at the current cursor. -/
def place (st : PdfState) (x : ℚ) (t : String) (g : Bool) : PdfState :=
  { st with placed := st.placed ++ [{ page := st.page, x := x, y := st.y, text := t, guarded := g }] }

/-- Model of `doc.textWithLink(t, x, yy, ...)` at an explicit vertical
position. -/
def placeAt (st : PdfState) (x yy : ℚ) (t : String) (g : Bool) : PdfState :=
  { st with placed := st.placed ++ [{ page := st.page, x := x, y := yy, text := t, guarded := g }] }

/-- Model of `if (y + h > doc.internal.pageSize.height - margin)
{ doc.addPage(); y = margin; }`. -/
def ensureSpace (st : PdfState) (h : ℚ) : PdfState :=
  if st.y + h > pageHeight - margin then { st with page := st.page + 1, y := margin } else st

/-- Model of `y += d`. -/
def advance (st : PdfState) (d : ℚ) : PdfState :=
  { st with y := st.y + d }

/-- The `forEach` body shared by the three bulleted-list loops and the
improvement-suggestions loop (`src/App.tsx`, lines 289-296, 312-319, 335-342,
404-411): page-break check, `- item` at `margin + 5`, advance. -/
def bulletLoop (items : List String) (st : PdfState) : PdfState :=
  items.foldl (fun st item =>
    advance (place (ensureSpace st lineHeight) (margin + 5) ("- " ++ item) true) lineHeight) st

/-- One of the three list sections (`src/App.tsx`, lines 283-350, three
structurally identical blocks): a bulleted block when the list is non-empty,
otherwise the header with a literal fallback string placed at
`margin + gtw(header + ' ') + 2`. -/
def renderListSection (gtw : String → ℚ) (header fallback : String)
    (items : List String) (st : PdfState) : PdfState :=
  if items ≠ [] then
    advance (bulletLoop items (advance (place st margin header false) lineHeight)) sectionSpacing
  else
    advance (place (place st margin header false) (margin + gtw (header ++ " ") + 2) fallback false)
      (lineHeight + sectionSpacing)

/-- Wrapped-paragraph loop used for `moreDetails` (`src/App.tsx`,
lines 360-367): page-break check, line at `margin`, advance. -/
def wrappedLoop (ls : List String) (st : PdfState) : PdfState :=
  ls.foldl (fun st line =>
    advance (place (ensureSpace st lineHeight) margin line true) lineHeight) st

/-- Section `More details` (`src/App.tsx`, lines 353-369). -/
def renderMoreDetails (stts : String → ℚ → List String) (r : ParsedResult)
    (st : PdfState) : PdfState :=
  if r.moreDetails ≠ "" then
    advance (wrappedLoop (stts r.moreDetails textWidth)
      (advance (place st margin "More details:" false) lineHeight)) sectionSpacing
  else st

/-- Indented wrapped-explanation loop (`src/App.tsx`, lines 385-392). -/
def explanationLoop (ls : List String) (st : PdfState) : PdfState :=
  ls.foldl (fun st line =>
    advance (place (ensureSpace st lineHeight) (margin + 10) line true) lineHeight) st

/-- Section `Ingredient-specific details` (`src/App.tsx`, lines 371-396): the
`y + lineHeight * 2` group check covers the name line together with at least
the first explanation line. -/
def renderIngredientDetails (stts : String → ℚ → List String) (r : ParsedResult)
    (st : PdfState) : PdfState :=
  if r.ingredientSpecificDetails ≠ [] then
    advance (r.ingredientSpecificDetails.foldl (fun st item =>
      advance (explanationLoop (stts item.explanation (textWidth - 10))
        (advance (place (ensureSpace st (lineHeight * 2)) (margin + 5) (item.name ++ ":") true)
          lineHeight)) (lineHeight / 2))
      (advance (place st margin "Ingredient-specific details:" false) lineHeight)) sectionSpacing
  else st

/-- Section `Improvement suggestions` (`src/App.tsx`, lines 398-413). -/
def renderImprovementSuggestions (r : ParsedResult) (st : PdfState) : PdfState :=
  if r.improvementSuggestions ≠ [] then
    advance (bulletLoop r.improvementSuggestions
      (advance (place st margin "Improvement suggestions:" false) lineHeight)) sectionSpacing
  else st

/-- Section `Source Information` (`src/App.tsx`, lines 415-433): per URL a
`lineHeight * 2` group check, the title (or URI when the title is empty,
`url.title || url.uri`), and the link text at `y + lineHeight / 2`. -/
def renderGroundingUrls (r : ParsedResult) (st : PdfState) : PdfState :=
  if r.groundingUrls ≠ [] then
    advance (r.groundingUrls.foldl (fun st url =>
      let st := ensureSpace st (lineHeight * 2)
      let st := place st (margin + 5) (if url.title ≠ "" then url.title else url.uri) true
      let st := placeAt st (margin + 5) (st.y + lineHeight / 2) url.uri true
      advance st (lineHeight * 2))
      (advance (place st margin "Source Information:" false) lineHeight)) sectionSpacing
  else st

/-- Function `generatePdfReport` (`src/App.tsx`, lines 251-436), modelled as
the list of text placements it makes.  `gtw` stands for `doc.getTextWidth`
and `stts` for `doc.splitTextToSize`, both supplied by the external jsPDF
library and therefore taken as parameters.  Font and color changes do not
affect placement and are not modelled.  The header block and the two
label/value pairs place text before any loop runs, with no page-break
check. -/
def generatePdfReport (gtw : String → ℚ) (stts : String → ℚ → List String)
    (r : ParsedResult) : List Placement :=
  let st : PdfState := { page := 1, y := 10, placed := [] }
  let st := advance (place st margin (r.icon ++ " Sustainability Check Result") false) (lineHeight * 2)
  let st := advance (place (place st margin "Overall Verdict:" false)
    (margin + gtw "Overall Verdict: ") r.overallVerdict false) lineHeight
  let st := advance (place (place st margin "Greenwashing Risk:" false)
    (margin + gtw "Greenwashing Risk: ") r.greenwashingRisk false) (lineHeight + sectionSpacing)
  let st := renderListSection gtw "Claims that failed to meet expectations:" "None" r.claimsFailed st
  let st := renderListSection gtw "Why these claims failed:"
    "All claims appear reasonable or are well-supported by ingredients." r.whyClaimsFailed st
  let st := renderListSection gtw "Ingredients to note:" "None" r.ingredientsToNote st
  let st := renderMoreDetails stts r st
  let st := renderIngredientDetails stts r st
  let st := renderImprovementSuggestions r st
  let st := renderGroundingUrls r st
  st.placed

/-- Every placement that the source guarded with a page-break check sits at
least one line height above the bottom margin. -/
def GuardBound (ps : List Placement) : Prop :=
  ∀ p ∈ ps, p.guarded = true → p.y + lineHeight ≤ pageHeight - margin

end Pdf

lemma applySection_groundingUrls (sec : ParseSection) (line : String) (st : ParseState) :
    (applySection sec line st).result.groundingUrls = st.result.groundingUrls := by
  cases sec <;> simp only [applySection] <;> split <;> try split
  all_goals rfl

lemma applySection_overallVerdict (sec : ParseSection) (line : String) (st : ParseState) :
    (applySection sec line st).result.overallVerdict = st.result.overallVerdict := by
  cases sec <;> simp only [applySection] <;> split <;> try split
  all_goals rfl

lemma parseLines_groundingUrls :
    ∀ (ls : List String) (st : ParseState), ∀ st', parseLines ls st = .ok st' →
      st'.result.groundingUrls = st.result.groundingUrls := by
  intro ls st
  induction ls, st using parseLines.induct
  all_goals intro st' h
  all_goals rw [parseLines.eq_def] at h
  all_goals simp_all [applySection_groundingUrls]

lemma parseLines_overallVerdict_preserved :
    ∀ (ls : List String) (st : ParseState),
      (∀ l ∈ ls, jsStartsWith (jsTrim l) "Overall Verdict:" = false) →
      ∀ st', parseLines ls st = .ok st' →
      st'.result.overallVerdict = st.result.overallVerdict := by
  intro ls st
  induction ls, st using parseLines.induct
  all_goals intro hls st' h
  all_goals rw [parseLines.eq_def] at h
  all_goals simp_all [applySection_overallVerdict]

lemma parseLines_cons_nonconsuming (l : String) (rest : List String) (st : ParseState)
    (h : isConsumingHeader (jsTrim l) = false) :
    ∃ st₁, parseLines (l :: rest) st = parseLines rest st₁ := by
  by_cases hic : (jsStartsWith (jsTrim l) "❌" || jsStartsWith (jsTrim l) "🟠"
      || jsStartsWith (jsTrim l) "✅") = true
  · exact ⟨_, by rw [parseLines.eq_def]; simp [hic]; try rfl⟩
  · rw [Bool.not_eq_true] at hic
    have h' : jsStartsWith (jsTrim l) "Overall Verdict:" = false ∧
        jsStartsWith (jsTrim l) "Greenwashing Risk:" = false := by
      simp only [isConsumingHeader, hic, Bool.not_false, Bool.true_and,
        Bool.or_eq_false_iff] at h
      exact h
    obtain ⟨hov, hgr⟩ := h'
    by_cases h6 : jsStartsWith (jsTrim l) "Claims that failed to meet expectations:" = true
    · exact ⟨_, by rw [parseLines.eq_def]; simp [hic, hov, hgr, h6]; try rfl⟩
    by_cases h7 : jsStartsWith (jsTrim l) "Why these claims failed:" = true
    · exact ⟨_, by rw [parseLines.eq_def]; simp [hic, hov, hgr, h6, h7]; try rfl⟩
    by_cases h8 : jsStartsWith (jsTrim l) "Ingredients to note:" = true
    · exact ⟨_, by rw [parseLines.eq_def]; simp [hic, hov, hgr, h6, h7, h8]; try rfl⟩
    by_cases h9 : jsStartsWith (jsTrim l) "More details:" = true
    · exact ⟨_, by rw [parseLines.eq_def]; simp [hic, hov, hgr, h6, h7, h8, h9]; try rfl⟩
    by_cases h10 : jsStartsWith (jsTrim l) "Ingredient-specific details:" = true
    · exact ⟨_, by rw [parseLines.eq_def]; simp [hic, hov, hgr, h6, h7, h8, h9, h10]; try rfl⟩
    by_cases h11 : jsStartsWith (jsTrim l) "Improvement suggestions:" = true
    · exact ⟨_, by rw [parseLines.eq_def]; simp [hic, hov, hgr, h6, h7, h8, h9, h10, h11]; try rfl⟩
    cases hcs : st.currentSection with
    | none =>
      exact ⟨st, by
        rw [parseLines.eq_def]; simp [hic, hov, hgr, h6, h7, h8, h9, h10, h11, hcs]; try rfl⟩
    | some sec =>
      exact ⟨applySection sec (jsTrim l) st, by
        rw [parseLines.eq_def]; simp [hic, hov, hgr, h6, h7, h8, h9, h10, h11, hcs]; try rfl⟩

lemma parseLines_cons_consuming (l v : String) (rest' : List String) (st : ParseState)
    (h : isConsumingHeader (jsTrim l) = true) :
    ∃ st₁, parseLines (l :: v :: rest') st = parseLines rest' st₁ := by
  simp only [isConsumingHeader, Bool.and_eq_true, Bool.not_eq_true',
    Bool.or_eq_true] at h
  obtain ⟨hic, hovgr⟩ := h
  by_cases hov : jsStartsWith (jsTrim l) "Overall Verdict:" = true
  · exact ⟨_, by rw [parseLines.eq_def]; simp [hic, hov]; try rfl⟩
  · rw [Bool.not_eq_true] at hov
    have hgr : jsStartsWith (jsTrim l) "Greenwashing Risk:" = true := by
      rcases hovgr with h' | h'
      · exact absurd h' (by simp [hov])
      · exact h'
    exact ⟨_, by rw [parseLines.eq_def]; simp [hic, hov, hgr]; try rfl⟩

lemma getLast?_fact_tail {P : String → Prop} {l : String} {t : List String}
    (h : ∀ x, (l :: t).getLast? = some x → P x) :
    ∀ x, t.getLast? = some x → P x := by
  intro x hx
  apply h
  cases t with
  | nil => simp at hx
  | cons a t' => rw [List.getLast?_cons_cons]; exact hx

lemma parseLines_append_aux :
    ∀ (n : Nat) (pre : List String), pre.length ≤ n →
      ∀ (suffix : List String) (st : ParseState), suffix ≠ [] →
      (∀ x, pre.getLast? = some x → isConsumingHeader (jsTrim x) = false) →
      ∃ st', parseLines (pre ++ suffix) st = parseLines suffix st' := by
  intro n
  induction n with
  | zero =>
    intro pre hlen suffix st _ _
    have hpre : pre = [] := List.length_eq_zero.mp (Nat.le_zero.mp hlen)
    subst hpre
    exact ⟨st, rfl⟩
  | succ n ih =>
    intro pre hlen suffix st hsuf hlast
    cases pre with
    | nil => exact ⟨st, rfl⟩
    | cons l pre' =>
      by_cases hc : isConsumingHeader (jsTrim l) = true
      · cases pre' with
        | nil => exact absurd (hlast l rfl) (by simp [hc])
        | cons v pre'' =>
          obtain ⟨st₁, hstep⟩ := parseLines_cons_consuming l v (pre'' ++ suffix) st hc
          rw [List.cons_append, List.cons_append, hstep]
          have hlen'' : pre''.length ≤ n := by simp at hlen; omega
          exact ih pre'' hlen'' suffix st₁ hsuf
            (getLast?_fact_tail (getLast?_fact_tail hlast))
      · rw [Bool.not_eq_true] at hc
        obtain ⟨st₁, hstep⟩ := parseLines_cons_nonconsuming l (pre' ++ suffix) st hc
        rw [List.cons_append, hstep]
        have hlen' : pre'.length ≤ n := by simp at hlen; omega
        exact ih pre' hlen' suffix st₁ hsuf (getLast?_fact_tail hlast)

lemma finalize_overallVerdict (st : ParseState) :
    (finalize st).overallVerdict = st.result.overallVerdict := by
  simp only [finalize]
  split <;> rfl

lemma finalize_groundingUrls (st : ParseState) :
    (finalize st).groundingUrls = st.result.groundingUrls := by
  simp only [finalize]
  split <;> rfl

lemma appendToLastExplanation_concat (l : List IngredientDetail) (d : IngredientDetail)
    (s : String) :
    appendToLastExplanation (l ++ [d]) s = l ++ [{ d with explanation := d.explanation ++ s }] := by
  simp [appendToLastExplanation, List.getLast?_concat, List.dropLast_concat]

namespace Pdf

lemma guardBound_place_false {st : PdfState} {x : ℚ} {t : String}
    (h : GuardBound st.placed) : GuardBound (place st x t false).placed := by
  intro p hp hg
  simp only [place, List.mem_append, List.mem_singleton] at hp
  rcases hp with hp | hp
  · exact h p hp hg
  · subst hp; simp at hg

lemma guardBound_place_true {st : PdfState} {x : ℚ} {t : String}
    (h : GuardBound st.placed) (hy : st.y + lineHeight ≤ pageHeight - margin) :
    GuardBound (place st x t true).placed := by
  intro p hp hg
  simp only [place, List.mem_append, List.mem_singleton] at hp
  rcases hp with hp | hp
  · exact h p hp hg
  · subst hp; exact hy

lemma guardBound_placeAt_true {st : PdfState} {x yy : ℚ} {t : String}
    (h : GuardBound st.placed) (hy : yy + lineHeight ≤ pageHeight - margin) :
    GuardBound (placeAt st x yy t true).placed := by
  intro p hp hg
  simp only [placeAt, List.mem_append, List.mem_singleton] at hp
  rcases hp with hp | hp
  · exact h p hp hg
  · subst hp; exact hy

lemma ensureSpace_placed (st : PdfState) (h : ℚ) : (ensureSpace st h).placed = st.placed := by
  simp only [ensureSpace]; split <;> rfl

lemma ensureSpace_page_room (st : PdfState) (h : ℚ)
    (h1 : margin + h ≤ pageHeight - margin) :
    (ensureSpace st h).y + h ≤ pageHeight - margin := by
  simp only [ensureSpace]
  split
  · simpa using h1
  · linarith [not_lt.mp (by simpa using ‹¬st.y + h > pageHeight - margin›)]

lemma advance_placed (st : PdfState) (d : ℚ) : (advance st d).placed = st.placed := rfl

lemma guardBound_foldl {α : Type} (f : PdfState → α → PdfState)
    (hf : ∀ st a, GuardBound st.placed → GuardBound (f st a).placed) :
    ∀ (l : List α) (st : PdfState), GuardBound st.placed → GuardBound (l.foldl f st).placed := by
  intro l
  induction l with
  | nil => intro st h; exact h
  | cons a t ih => intro st h; exact ih _ (hf st a h)

lemma guardBound_bulletLoop (items : List String) (st : PdfState)
    (h : GuardBound st.placed) : GuardBound (bulletLoop items st).placed := by
  refine guardBound_foldl _ ?_ items st h
  intro st a h
  rw [advance_placed]
  refine guardBound_place_true ?_ ?_
  · rw [ensureSpace_placed]; exact h
  · exact ensureSpace_page_room st lineHeight (by norm_num [margin, lineHeight, pageHeight])

lemma guardBound_wrappedLoop (ls : List String) (st : PdfState)
    (h : GuardBound st.placed) : GuardBound (wrappedLoop ls st).placed := by
  refine guardBound_foldl _ ?_ ls st h
  intro st a h
  rw [advance_placed]
  refine guardBound_place_true ?_ ?_
  · rw [ensureSpace_placed]; exact h
  · exact ensureSpace_page_room st lineHeight (by norm_num [margin, lineHeight, pageHeight])

lemma guardBound_explanationLoop (ls : List String) (st : PdfState)
    (h : GuardBound st.placed) : GuardBound (explanationLoop ls st).placed := by
  refine guardBound_foldl _ ?_ ls st h
  intro st a h
  rw [advance_placed]
  refine guardBound_place_true ?_ ?_
  · rw [ensureSpace_placed]; exact h
  · exact ensureSpace_page_room st lineHeight (by norm_num [margin, lineHeight, pageHeight])

lemma guardBound_renderListSection (gtw : String → ℚ) (header fallback : String)
    (items : List String) (st : PdfState) (h : GuardBound st.placed) :
    GuardBound (renderListSection gtw header fallback items st).placed := by
  unfold renderListSection
  split
  · rw [advance_placed]
    refine guardBound_bulletLoop _ _ ?_
    rw [advance_placed]
    exact guardBound_place_false h
  · rw [advance_placed]
    exact guardBound_place_false (guardBound_place_false h)

lemma guardBound_renderMoreDetails (stts : String → ℚ → List String) (r : ParsedResult)
    (st : PdfState) (h : GuardBound st.placed) :
    GuardBound (renderMoreDetails stts r st).placed := by
  unfold renderMoreDetails
  split
  · rw [advance_placed]
    refine guardBound_wrappedLoop _ _ ?_
    rw [advance_placed]
    exact guardBound_place_false h
  · exact h

lemma guardBound_renderIngredientDetails (stts : String → ℚ → List String) (r : ParsedResult)
    (st : PdfState) (h : GuardBound st.placed) :
    GuardBound (renderIngredientDetails stts r st).placed := by
  unfold renderIngredientDetails
  split
  · rw [advance_placed]
    refine guardBound_foldl _ ?_ _ _ ?_
    · intro st a h
      rw [advance_placed]
      refine guardBound_explanationLoop _ _ ?_
      rw [advance_placed]
      refine guardBound_place_true ?_ ?_
      · rw [ensureSpace_placed]; exact h
      · have := ensureSpace_page_room st (lineHeight * 2)
          (by norm_num [margin, lineHeight, pageHeight])
        have h2 : (0:ℚ) ≤ lineHeight := by norm_num [lineHeight]
        linarith
    · rw [advance_placed]
      exact guardBound_place_false h
  · exact h

lemma guardBound_renderImprovementSuggestions (r : ParsedResult)
    (st : PdfState) (h : GuardBound st.placed) :
    GuardBound (renderImprovementSuggestions r st).placed := by
  unfold renderImprovementSuggestions
  split
  · rw [advance_placed]
    refine guardBound_bulletLoop _ _ ?_
    rw [advance_placed]
    exact guardBound_place_false h
  · exact h

lemma guardBound_renderGroundingUrls (r : ParsedResult)
    (st : PdfState) (h : GuardBound st.placed) :
    GuardBound (renderGroundingUrls r st).placed := by
  unfold renderGroundingUrls
  split
  · rw [advance_placed]
    refine guardBound_foldl _ ?_ _ _ ?_
    · intro st a h
      rw [advance_placed]
      have hroom := ensureSpace_page_room st (lineHeight * 2)
        (by norm_num [margin, lineHeight, pageHeight])
      have h2 : (0:ℚ) ≤ lineHeight := by norm_num [lineHeight]
      refine guardBound_placeAt_true ?_ ?_
      · refine guardBound_place_true ?_ ?_
        · rw [ensureSpace_placed]; exact h
        · linarith
      · have hy : (place (ensureSpace st (lineHeight * 2)) (margin + 5)
            (if a.title ≠ "" then a.title else a.uri) true).y
            = (ensureSpace st (lineHeight * 2)).y := rfl
        rw [hy]
        have h3 : lineHeight / 2 ≤ lineHeight := by norm_num [lineHeight]
        linarith
    · rw [advance_placed]
      exact guardBound_place_false h
  · exact h

lemma placed_subset_place (st : PdfState) (x : ℚ) (t : String) (g : Bool) :
    st.placed ⊆ (place st x t g).placed :=
  List.subset_append_left _ _

lemma placed_subset_placeAt (st : PdfState) (x yy : ℚ) (t : String) (g : Bool) :
    st.placed ⊆ (placeAt st x yy t g).placed :=
  List.subset_append_left _ _

lemma placed_subset_foldl {α : Type} (f : PdfState → α → PdfState)
    (hf : ∀ st a, st.placed ⊆ (f st a).placed) :
    ∀ (l : List α) (st : PdfState), st.placed ⊆ (l.foldl f st).placed := by
  intro l
  induction l with
  | nil => intro st; exact fun p hp => hp
  | cons a t ih => intro st; exact fun p hp => ih _ (hf st a hp)

lemma placed_subset_bulletLoop (items : List String) (st : PdfState) :
    st.placed ⊆ (bulletLoop items st).placed := by
  refine placed_subset_foldl _ ?_ items st
  intro st a
  rw [advance_placed]
  intro p hp
  refine placed_subset_place _ _ _ _ ?_
  rw [ensureSpace_placed]
  exact hp

lemma placed_subset_wrappedLoop (ls : List String) (st : PdfState) :
    st.placed ⊆ (wrappedLoop ls st).placed := by
  refine placed_subset_foldl _ ?_ ls st
  intro st a
  rw [advance_placed]
  intro p hp
  refine placed_subset_place _ _ _ _ ?_
  rw [ensureSpace_placed]
  exact hp

lemma placed_subset_explanationLoop (ls : List String) (st : PdfState) :
    st.placed ⊆ (explanationLoop ls st).placed := by
  refine placed_subset_foldl _ ?_ ls st
  intro st a
  rw [advance_placed]
  intro p hp
  refine placed_subset_place _ _ _ _ ?_
  rw [ensureSpace_placed]
  exact hp

lemma placed_subset_renderListSection (gtw : String → ℚ) (header fallback : String)
    (items : List String) (st : PdfState) :
    st.placed ⊆ (renderListSection gtw header fallback items st).placed := by
  unfold renderListSection
  split
  · rw [advance_placed]
    intro p hp
    refine placed_subset_bulletLoop _ _ ?_
    rw [advance_placed]
    exact placed_subset_place _ _ _ _ hp
  · rw [advance_placed]
    intro p hp
    exact placed_subset_place _ _ _ _ (placed_subset_place _ _ _ _ hp)

lemma placed_subset_renderMoreDetails (stts : String → ℚ → List String) (r : ParsedResult)
    (st : PdfState) : st.placed ⊆ (renderMoreDetails stts r st).placed := by
  unfold renderMoreDetails
  split
  · rw [advance_placed]
    intro p hp
    refine placed_subset_wrappedLoop _ _ ?_
    rw [advance_placed]
    exact placed_subset_place _ _ _ _ hp
  · exact fun p hp => hp

lemma placed_subset_renderIngredientDetails (stts : String → ℚ → List String)
    (r : ParsedResult) (st : PdfState) :
    st.placed ⊆ (renderIngredientDetails stts r st).placed := by
  unfold renderIngredientDetails
  split
  · rw [advance_placed]
    intro p hp
    refine placed_subset_foldl _ ?_ _ _ ?_
    · intro st a
      rw [advance_placed]
      intro q hq
      refine placed_subset_explanationLoop _ _ ?_
      rw [advance_placed]
      refine placed_subset_place _ _ _ _ ?_
      rw [ensureSpace_placed]
      exact hq
    · rw [advance_placed]
      exact placed_subset_place _ _ _ _ hp
  · exact fun p hp => hp

lemma placed_subset_renderImprovementSuggestions (r : ParsedResult) (st : PdfState) :
    st.placed ⊆ (renderImprovementSuggestions r st).placed := by
  unfold renderImprovementSuggestions
  split
  · rw [advance_placed]
    intro p hp
    refine placed_subset_bulletLoop _ _ ?_
    rw [advance_placed]
    exact placed_subset_place _ _ _ _ hp
  · exact fun p hp => hp

lemma placed_subset_renderGroundingUrls (r : ParsedResult) (st : PdfState) :
    st.placed ⊆ (renderGroundingUrls r st).placed := by
  unfold renderGroundingUrls
  split
  · rw [advance_placed]
    intro p hp
    refine placed_subset_foldl _ ?_ _ _ ?_
    · intro st a
      rw [advance_placed]
      intro q hq
      refine placed_subset_placeAt _ _ _ _ _ ?_
      refine placed_subset_place _ _ _ _ ?_
      rw [ensureSpace_placed]
      exact hq
    · rw [advance_placed]
      exact placed_subset_place _ _ _ _ hp
  · exact fun p hp => hp

lemma renderListSection_empty_fallback (gtw : String → ℚ) (header fallback : String)
    (st : PdfState) :
    ({ page := st.page, x := margin + gtw (header ++ " ") + 2, y := st.y,
       text := fallback, guarded := false } : Placement) ∈
      (renderListSection gtw header fallback [] st).placed := by
  unfold renderListSection
  simp [place, advance]

end Pdf

/-- C1 (counterexample): a non-empty input consisting only of whitespace does
not produce the irrelevant-input outcome; `parseSustainabilityResult " "`
returns a populated record with empty fields, because JavaScript `!rawText`
is false for `" "` and `" ".trim()` differs from the trimmed sentinel. -/
theorem whitespace_only_input_returns_record :
    parseSustainabilityResult " " = .ok (some initResult) ∧
      (Except.ok (some initResult) : Except Unit (Option ParsedResult)) ≠ .ok none :=
  ⟨by decide, by decide⟩

/-- C1 (amended): `parseSustainabilityResult` returns the irrelevant-input
outcome (`null`) exactly for the empty string and for inputs whose trimmed
value equals the trimmed sentinel guidance message; for every other input it
never returns that outcome (it returns a record, or throws as in C2). -/
theorem parse_irrelevant_iff_empty_or_sentinel (raw : String) :
    parseSustainabilityResult raw = .ok none ↔
      (raw = "" ∨ jsTrim raw = jsTrim IRRELEVANT_INPUT_MESSAGE) := by
  constructor
  · intro h
    by_contra hc
    unfold parseSustainabilityResult at h
    rw [if_neg hc] at h
    cases hpl : parseLines (jsSplitLines raw) initState with
    | error e => rw [hpl] at h; simp [Except.map] at h
    | ok st => rw [hpl] at h; simp [Except.map] at h
  · intro h
    unfold parseSustainabilityResult
    rw [if_pos h]

/-- C1 (witness): the equivalence instantiated at the sentinel message
itself. -/
theorem parse_irrelevant_iff_witness :
    parseSustainabilityResult IRRELEVANT_INPUT_MESSAGE = .ok none ↔
      (IRRELEVANT_INPUT_MESSAGE = "" ∨
        jsTrim IRRELEVANT_INPUT_MESSAGE = jsTrim IRRELEVANT_INPUT_MESSAGE) :=
  parse_irrelevant_iff_empty_or_sentinel IRRELEVANT_INPUT_MESSAGE

/-- C2 (code bug): when `"Overall Verdict:"` or `"Greenwashing Risk:"` is the
last line of the input, `lines[++i]` is `undefined` and `.trim()` throws a
`TypeError` instead of storing an empty string; the parse aborts with an
exception (modelled as `Except.error ()`), not with an empty-valued field. -/
theorem header_last_line_throws :
    parseSustainabilityResult "Overall Verdict:" = .error () ∧
      parseSustainabilityResult "Greenwashing Risk:" = .error () :=
  ⟨by decide, by decide⟩

/-- C9: whenever `parseSustainabilityResult` returns a record, its
`groundingUrls` field is the empty list; citations are merged in only
afterwards by the caller (`handleSubmit`). -/
theorem groundingUrls_empty_after_parse (raw : String) (r : ParsedResult)
    (h : parseSustainabilityResult raw = .ok (some r)) : r.groundingUrls = [] := by
  unfold parseSustainabilityResult at h
  split at h
  · simp at h
  · cases hpl : parseLines (jsSplitLines raw) initState with
    | error e => rw [hpl] at h; simp [Except.map] at h
    | ok st =>
      rw [hpl] at h
      simp only [Except.map, Except.ok.injEq, Option.some.injEq] at h
      rw [← h, finalize_groundingUrls, parseLines_groundingUrls _ _ _ hpl]
      rfl

/-- C9 (witness): the invariant instantiated at the one-line input `"x"`. -/
theorem groundingUrls_empty_witness :
    parseSustainabilityResult "x" = .ok (some initResult) ∧ initResult.groundingUrls = [] :=
  ⟨by decide, groundingUrls_empty_after_parse "x" initResult (by decide)⟩

/-- C3: while the cursor is one of the four bulleted-list sections, a
(trimmed) line reaching the section accumulator — i.e. not recognized by the
earlier icon/header rules, which are covered by other clauses of the spec —
appends its remainder after `"- "`, trimmed, to the corresponding list when
it starts with `"- "`, and otherwise leaves the state (in particular the
cursor) unchanged; the spec's concrete example yields
`claimsFailed = ["Claim A", "Claim B"]` in input order. -/
theorem bulleted_section_line_handling :
    (∀ (sec : ParseSection) (line : String) (st : ParseState),
        sec = .claimsFailed ∨ sec = .whyClaimsFailed ∨ sec = .ingredientsToNote ∨
          sec = .improvementSuggestions →
        (jsStartsWith line "- " = true →
          bulletedList sec (applySection sec line st).result =
            bulletedList sec st.result ++ [jsTrim (jsDrop line 2)]) ∧
        (jsStartsWith line "- " = false → applySection sec line st = st)) ∧
    (parseSustainabilityResult
        "Claims that failed to meet expectations:\n- Claim A\n- Claim B\n").map
        (Option.map ParsedResult.claimsFailed) = .ok (some ["Claim A", "Claim B"]) := by
  constructor
  · intro sec line st hsec
    constructor
    · intro h
      rcases hsec with h1 | h1 | h1 | h1 <;> subst h1 <;> simp [applySection, bulletedList, h]
    · intro h
      rcases hsec with h1 | h1 | h1 | h1 <;> subst h1 <;> simp [applySection, h]
  · decide

/-- C3 (witness): the bulleted-list step applied to the concrete line
`"- x"` in the `claimsFailed` section. -/
theorem bulleted_section_line_handling_witness :
    jsStartsWith "- x" "- " = true ∧
      bulletedList .claimsFailed (applySection .claimsFailed "- x" initState).result =
        bulletedList .claimsFailed initState.result ++ [jsTrim (jsDrop "- x" 2)] :=
  ⟨by decide,
    (bulleted_section_line_handling.1 .claimsFailed "- x" initState (Or.inl rfl)).1 (by decide)⟩

/-- C4: while the cursor is `ingredientSpecificDetails`, a line ending in `:`
with a non-empty trimmed pre-colon text appends a fresh `{name,
explanation: ""}` entry and activates that name; a subsequent non-empty
non-colon line while a name is active appends itself plus a newline to the
last entry's explanation (a no-op when no entry exists); after the scan,
every explanation is trimmed; the spec's concrete example produces one entry
`{name := "Paraben", explanation := "Synthetic preservative.\nMore text."}`
with the internal newline preserved and the trailing newline trimmed. -/
theorem ingredient_details_accumulation :
    (∀ (line : String) (st : ParseState), jsEndsWith line ":" = true →
        jsTrim (jsDropLast line) ≠ "" →
        (applySection .ingredientSpecificDetails line st).result.ingredientSpecificDetails =
            st.result.ingredientSpecificDetails ++ [⟨jsTrim (jsDropLast line), ""⟩] ∧
          (applySection .ingredientSpecificDetails line st).ingredientDetailName =
            jsTrim (jsDropLast line)) ∧
    (∀ (line : String) (st : ParseState), jsEndsWith line ":" = false →
        st.ingredientDetailName ≠ "" → line ≠ "" →
        (applySection .ingredientSpecificDetails line st).result.ingredientSpecificDetails =
          appendToLastExplanation st.result.ingredientSpecificDetails (line ++ "\n")) ∧
    (∀ (l : List IngredientDetail) (d : IngredientDetail) (s : String),
        appendToLastExplanation (l ++ [d]) s =
          l ++ [{ d with explanation := d.explanation ++ s }]) ∧
    (∀ st : ParseState, (finalize st).ingredientSpecificDetails =
        st.result.ingredientSpecificDetails.map
          (fun d => { d with explanation := jsTrim d.explanation })) ∧
    (parseSustainabilityResult
        "Ingredient-specific details:\nParaben:\nSynthetic preservative.\nMore text.\n").map
        (Option.map ParsedResult.ingredientSpecificDetails) =
      .ok (some [⟨"Paraben", "Synthetic preservative.\nMore text."⟩]) := by
  refine ⟨?_, ?_, appendToLastExplanation_concat, ?_, by decide⟩
  · intro line st h1 h2
    constructor <;> simp [applySection, h1, h2]
  · intro line st h1 h2 h3
    simp [applySection, h1, h2, h3]
  · intro st
    simp only [finalize]
    split <;> rfl

/-- C4 (witness): the entry-creating step applied to the concrete line
`"Paraben:"`. -/
theorem ingredient_details_accumulation_witness :
    jsEndsWith "Paraben:" ":" = true ∧ jsTrim (jsDropLast "Paraben:") ≠ "" ∧
      ((applySection .ingredientSpecificDetails "Paraben:" initState).result.ingredientSpecificDetails =
          initState.result.ingredientSpecificDetails ++ [⟨jsTrim (jsDropLast "Paraben:"), ""⟩] ∧
        (applySection .ingredientSpecificDetails "Paraben:" initState).ingredientDetailName =
          jsTrim (jsDropLast "Paraben:")) :=
  ⟨by decide, by decide,
    ingredient_details_accumulation.1 "Paraben:" initState (by decide) (by decide)⟩

/-- C7: while the cursor is `moreDetails`, every non-empty (trimmed) line
reaching the section accumulator is appended with a trailing newline, an
empty line leaves the state unchanged, and the accumulator is trimmed exactly
once at the end of the whole scan (the `finalize` step); the concrete input
`"More details:\nA\nB\n"` yields `moreDetails = "A\nB"`. -/
theorem moreDetails_accumulation_and_final_trim :
    (∀ (line : String) (st : ParseState), line ≠ "" →
        (applySection .moreDetails line st).result.moreDetails =
          st.result.moreDetails ++ line ++ "\n") ∧
    (∀ (line : String) (st : ParseState), line = "" →
        applySection .moreDetails line st = st) ∧
    (∀ st : ParseState, (finalize st).moreDetails =
        if st.result.moreDetails ≠ "" then jsTrim st.result.moreDetails
        else st.result.moreDetails) ∧
    (parseSustainabilityResult "More details:\nA\nB\n").map
        (Option.map ParsedResult.moreDetails) = .ok (some "A\nB") := by
  refine ⟨?_, ?_, ?_, by decide⟩
  · intro line st h
    simp [applySection, h]
  · intro line st h
    subst h
    simp [applySection]
  · intro st
    simp only [finalize]
    split <;> rfl

/-- C7 (witness): the accumulation step applied to the concrete non-empty
line `"A"`. -/
theorem moreDetails_accumulation_witness :
    ("A" : String) ≠ "" ∧
      (applySection .moreDetails "A" initState).result.moreDetails =
        initState.result.moreDetails ++ "A" ++ "\n" :=
  ⟨by decide, moreDetails_accumulation_and_final_trim.1 "A" initState (by decide)⟩

/-- C10: while the cursor is `ingredientSpecificDetails`, a line whose
trimmed content ends in `:` but whose pre-colon text trims to the empty
string creates no entry and resets the active name to `""`; while no name is
active, any non-colon line (empty or not) leaves the state unchanged, so its
text is dropped; the concrete input shows `"dropped"` vanishing between the
deactivating `":"` line and the reactivating `"B:"` line. -/
theorem empty_name_colon_line_deactivates :
    (∀ (line : String) (st : ParseState), jsEndsWith line ":" = true →
        jsTrim (jsDropLast line) = "" →
        applySection .ingredientSpecificDetails line st =
          { st with ingredientDetailName := "" }) ∧
    (∀ (line : String) (st : ParseState), st.ingredientDetailName = "" →
        jsEndsWith line ":" = false →
        applySection .ingredientSpecificDetails line st = st) ∧
    (parseSustainabilityResult "Ingredient-specific details:\nA:\nx\n:\ndropped\nB:\ny\n").map
        (Option.map ParsedResult.ingredientSpecificDetails) =
      .ok (some [⟨"A", "x"⟩, ⟨"B", "y"⟩]) := by
  refine ⟨?_, ?_, by decide⟩
  · intro line st h1 h2
    simp [applySection, h1, h2]
  · intro line st h1 h2
    simp [applySection, h1, h2]

/-- C10 (witness): the deactivating step applied to the concrete lone-colon
line `":"`. -/
theorem empty_name_colon_line_witness :
    jsEndsWith ":" ":" = true ∧ jsTrim (jsDropLast ":") = "" ∧
      applySection .ingredientSpecificDetails ":" initState =
        { initState with ingredientDetailName := "" } :=
  ⟨by decide, by decide,
    empty_name_colon_line_deactivates.1 ":" initState (by decide) (by decide)⟩

/-- C6 (counterexample): containing the substring
`"Overall Verdict:\nLow Greenwashing Risk\n"` is not sufficient — here the
occurrence starts mid-line (`"A Overall Verdict:"`), the trimmed line does
not start with the header literal, and the parse returns a record whose
`overallVerdict` is `""`, not `"Low Greenwashing Risk"`. -/
theorem substring_containment_insufficient_for_verdict :
    "A Overall Verdict:\nLow Greenwashing Risk\n" =
        "A " ++ "Overall Verdict:\nLow Greenwashing Risk\n" ++ "" ∧
      (parseSustainabilityResult "A Overall Verdict:\nLow Greenwashing Risk\n").map
        (Option.map ParsedResult.overallVerdict) = .ok (some "") :=
  ⟨by decide, by decide⟩

/-- C6 (amended): for every response text in which `"Overall Verdict:"` and
`"Low Greenwashing Risk"` occur as two consecutive whole lines, such that the
line before them (if any) is not a value-consuming header (which would
swallow the `"Overall Verdict:"` line as its value) and no later line starts,
after trimming, with `"Overall Verdict:"` (which would overwrite the field),
every successful parse returns `overallVerdict = "Low Greenwashing Risk"`. -/
theorem aligned_verdict_pair_sets_overallVerdict (raw : String)
    (pre post : List String) (r : ParsedResult)
    (hsplit : jsSplitLines raw = pre ++ "Overall Verdict:" :: "Low Greenwashing Risk" :: post)
    (hpre : ∀ x, pre.getLast? = some x → isConsumingHeader (jsTrim x) = false)
    (hpost : ∀ l ∈ post, jsStartsWith (jsTrim l) "Overall Verdict:" = false)
    (hres : parseSustainabilityResult raw = .ok (some r)) :
    r.overallVerdict = "Low Greenwashing Risk" := by
  unfold parseSustainabilityResult at hres
  split at hres
  · exact absurd hres (by simp)
  · cases hpl : parseLines (jsSplitLines raw) initState with
    | error e => rw [hpl] at hres; simp [Except.map] at hres
    | ok st =>
      rw [hpl] at hres
      simp only [Except.map, Except.ok.injEq, Option.some.injEq] at hres
      rw [hsplit] at hpl
      obtain ⟨st', heq⟩ := parseLines_append_aux pre.length pre le_rfl
        ("Overall Verdict:" :: "Low Greenwashing Risk" :: post) initState (by simp) hpre
      rw [heq] at hpl
      rw [parseLines.eq_def] at hpl
      simp only [show (jsStartsWith (jsTrim "Overall Verdict:") "❌"
          || jsStartsWith (jsTrim "Overall Verdict:") "🟠"
          || jsStartsWith (jsTrim "Overall Verdict:") "✅") = false from by decide,
        show jsStartsWith (jsTrim "Overall Verdict:") "Overall Verdict:" = true from by decide,
        Bool.false_eq_true, if_false, if_true] at hpl
      have hverdict := parseLines_overallVerdict_preserved post _ hpost st hpl
      rw [← hres, finalize_overallVerdict, hverdict]
      show jsTrim "Low Greenwashing Risk" = "Low Greenwashing Risk"
      decide

/-- C6 (witness): the amended statement applied to the concrete response
`"Overall Verdict:\nLow Greenwashing Risk\n"` (empty prefix, a single empty
trailing line). -/
theorem aligned_verdict_pair_witness :
    jsSplitLines "Overall Verdict:\nLow Greenwashing Risk\n" =
        [] ++ "Overall Verdict:" :: "Low Greenwashing Risk" :: [""] ∧
      parseSustainabilityResult "Overall Verdict:\nLow Greenwashing Risk\n" =
        .ok (some { initResult with overallVerdict := "Low Greenwashing Risk" }) ∧
      ({ initResult with overallVerdict := "Low Greenwashing Risk" } : ParsedResult).overallVerdict =
        "Low Greenwashing Risk" :=
  ⟨by decide, by decide,
    aligned_verdict_pair_sets_overallVerdict "Overall Verdict:\nLow Greenwashing Risk\n"
      [] [""] _ (by decide) (fun x hx => absurd hx (by simp)) (by decide) (by decide)⟩

/-- C5 (counterexample): not every line placement is preceded by a page-break
check — the section headers, label/value pairs and fallback strings are
placed without one.  With 33 failed claims (and all other sections empty) the
`"Why these claims failed:"` header is placed at `y = 296`, beyond the bottom
margin `pageHeight - margin = 287` of the A4 page. -/
theorem unchecked_header_placed_beyond_bottom_margin :
    ({ page := 1, x := 10, y := 296, text := "Why these claims failed:",
        guarded := false } : Pdf.Placement) ∈
        Pdf.generatePdfReport (fun _ => 0) (fun s _ => [s])
          { initResult with claimsFailed := List.replicate 33 "C" } ∧
      (296 : ℚ) > Pdf.pageHeight - Pdf.margin := by
  constructor
  · norm_num [Pdf.generatePdfReport, Pdf.renderListSection, Pdf.bulletLoop,
      Pdf.renderMoreDetails, Pdf.renderIngredientDetails,
      Pdf.renderImprovementSuggestions, Pdf.renderGroundingUrls, Pdf.place, Pdf.placeAt,
      Pdf.advance, Pdf.ensureSpace, Pdf.margin, Pdf.lineHeight, Pdf.sectionSpacing,
      Pdf.pageHeight, Pdf.pageWidth, Pdf.textWidth, initResult, List.replicate,
      List.foldl, List.cons_ne_nil, ne_eq, List.mem_cons]
  · norm_num [Pdf.pageHeight, Pdf.margin]

/-- C5 (amended): inside the bulleted-list loops, the wrapped-text loops, the
ingredient-entry groups and the source-link groups, a page-break check
(`y + required height > pageHeight - margin` starts a new page and resets the
cursor to the top margin) precedes each placement, and consequently every
placement so guarded lies at least one line height above the bottom margin;
the header, label/value and fallback placements outside those loops carry no
check and may land beyond the bottom margin (see the counterexample). -/
theorem checked_placements_stay_within_bottom_margin (gtw : String → ℚ)
    (stts : String → ℚ → List String) (r : ParsedResult) :
    ∀ p ∈ Pdf.generatePdfReport gtw stts r, p.guarded = true →
      p.y + Pdf.lineHeight ≤ Pdf.pageHeight - Pdf.margin := by
  show Pdf.GuardBound (Pdf.generatePdfReport gtw stts r)
  unfold Pdf.generatePdfReport
  refine Pdf.guardBound_renderGroundingUrls _ _ ?_
  refine Pdf.guardBound_renderImprovementSuggestions _ _ ?_
  refine Pdf.guardBound_renderIngredientDetails _ _ _ ?_
  refine Pdf.guardBound_renderMoreDetails _ _ _ ?_
  refine Pdf.guardBound_renderListSection _ _ _ _ _ ?_
  refine Pdf.guardBound_renderListSection _ _ _ _ _ ?_
  refine Pdf.guardBound_renderListSection _ _ _ _ _ ?_
  refine Pdf.guardBound_place_false ?_
  refine Pdf.guardBound_place_false ?_
  refine Pdf.guardBound_place_false ?_
  refine Pdf.guardBound_place_false ?_
  refine Pdf.guardBound_place_false ?_
  intro p hp
  simp at hp

/-- C5 (witness): the guarded-placement bound applied to the concrete
placement of `"- a"` in a single-claim report, which sits at `y = 55`. -/
theorem checked_placements_witness :
    ({ page := 1, x := 15, y := 55, text := "- " ++ "a", guarded := true } : Pdf.Placement) ∈
        Pdf.generatePdfReport (fun _ => 0) (fun s _ => [s])
          { initResult with claimsFailed := ["a"] } ∧
      (55 : ℚ) + Pdf.lineHeight ≤ Pdf.pageHeight - Pdf.margin := by
  have hmem : ({ page := 1, x := 15, y := 55, text := "- " ++ "a", guarded := true } :
      Pdf.Placement) ∈
      Pdf.generatePdfReport (fun _ => 0) (fun s _ => [s])
        { initResult with claimsFailed := ["a"] } := by
    norm_num [Pdf.generatePdfReport, Pdf.renderListSection, Pdf.bulletLoop,
      Pdf.renderMoreDetails, Pdf.renderIngredientDetails,
      Pdf.renderImprovementSuggestions, Pdf.renderGroundingUrls, Pdf.place, Pdf.placeAt,
      Pdf.advance, Pdf.ensureSpace, Pdf.margin, Pdf.lineHeight, Pdf.sectionSpacing,
      Pdf.pageHeight, Pdf.pageWidth, Pdf.textWidth, initResult,
      List.foldl, List.cons_ne_nil, ne_eq, List.mem_cons]
  exact ⟨hmem,
    checked_placements_stay_within_bottom_margin (fun _ => 0) (fun s _ => [s])
      { initResult with claimsFailed := ["a"] } _ hmem rfl⟩

/-- C8: whenever the rendered record has an empty `claimsFailed` list the
literal string `"None"` is placed, likewise for an empty `ingredientsToNote`,
and for an empty `whyClaimsFailed` the literal
`"All claims appear reasonable or are well-supported by ingredients."` is
placed — never an empty bulleted block. -/
theorem empty_list_fallback_literals_placed (gtw : String → ℚ)
    (stts : String → ℚ → List String) (r : ParsedResult) :
    (r.claimsFailed = [] →
      "None" ∈ (Pdf.generatePdfReport gtw stts r).map Pdf.Placement.text) ∧
    (r.ingredientsToNote = [] →
      "None" ∈ (Pdf.generatePdfReport gtw stts r).map Pdf.Placement.text) ∧
    (r.whyClaimsFailed = [] →
      "All claims appear reasonable or are well-supported by ingredients." ∈
        (Pdf.generatePdfReport gtw stts r).map Pdf.Placement.text) := by
  refine ⟨?_, ?_, ?_⟩
  · intro h
    simp only [Pdf.generatePdfReport]
    rw [h]
    exact List.mem_map_of_mem _
      (Pdf.placed_subset_renderGroundingUrls _ _
        (Pdf.placed_subset_renderImprovementSuggestions _ _
          (Pdf.placed_subset_renderIngredientDetails _ _ _
            (Pdf.placed_subset_renderMoreDetails _ _ _
              (Pdf.placed_subset_renderListSection _ _ _ _ _
                (Pdf.placed_subset_renderListSection _ _ _ _ _
                  (Pdf.renderListSection_empty_fallback _ _ _ _)))))))
  · intro h
    simp only [Pdf.generatePdfReport]
    rw [h]
    exact List.mem_map_of_mem _
      (Pdf.placed_subset_renderGroundingUrls _ _
        (Pdf.placed_subset_renderImprovementSuggestions _ _
          (Pdf.placed_subset_renderIngredientDetails _ _ _
            (Pdf.placed_subset_renderMoreDetails _ _ _
              (Pdf.renderListSection_empty_fallback _ _ _ _)))))
  · intro h
    simp only [Pdf.generatePdfReport]
    rw [h]
    exact List.mem_map_of_mem _
      (Pdf.placed_subset_renderGroundingUrls _ _
        (Pdf.placed_subset_renderImprovementSuggestions _ _
          (Pdf.placed_subset_renderIngredientDetails _ _ _
            (Pdf.placed_subset_renderMoreDetails _ _ _
              (Pdf.placed_subset_renderListSection _ _ _ _ _
                (Pdf.renderListSection_empty_fallback _ _ _ _))))))

/-- C8 (witness): the fallback conclusions for the all-empty record. -/
theorem empty_list_fallback_witness :
    initResult.claimsFailed = [] ∧
      "None" ∈ (Pdf.generatePdfReport (fun _ => 0) (fun s _ => [s]) initResult).map
        Pdf.Placement.text ∧
      "All claims appear reasonable or are well-supported by ingredients." ∈
        (Pdf.generatePdfReport (fun _ => 0) (fun s _ => [s]) initResult).map
          Pdf.Placement.text :=
  ⟨rfl,
    (empty_list_fallback_literals_placed (fun _ => 0) (fun s _ => [s]) initResult).1 rfl,
    (empty_list_fallback_literals_placed (fun _ => 0) (fun s _ => [s]) initResult).2.2 rfl⟩
